import Mathlib

/-!
Verification of the Im2Row sliding-window index-mapping engine from the
anyconv package: the Im2Row struct and its methods InputSize, NumX, NumY,
MakeOut, MapAll and Mapper.

Modelling conventions:
- Go int configuration fields are natural numbers (the data model declares
  them positive); the one computation that can go negative, the NumX and
  NumY window-count arithmetic, is carried out in ℤ with Int.tdiv, which
  truncates toward zero exactly like Go integer division.
- The Go for-loops of the index-table builder are embedded as a
  fuel-bounded structural recursion; a fuel of bound + 1 is enough
  iterations for every positive stride (with stride 0 the Go loop does not
  terminate, so no claim concerns that case).
- The anyvec backend (Creator, Mapper) is external to the repository, so
  its compile and gather operations are modelled from the spec; backends
  are identified by a natural-number id.
- MapAll has observable effects (obtaining the mapper, allocating the
  output matrix, invoking the callback, panicking); it is embedded as a
  function producing the ordered list of those events.
-/

structure Im2Row where
  WindowWidth : ℕ
  WindowHeight : ℕ
  StrideX : ℕ
  StrideY : ℕ
  InputWidth : ℕ
  InputHeight : ℕ
  InputDepth : ℕ
deriving DecidableEq

namespace Im2Row

/-- Translation of Im2Row.InputSize: total number of components in the
input tensors. -/
def InputSize (m : Im2Row) : ℕ :=
  m.InputWidth * m.InputHeight * m.InputDepth

/-- Translation of Im2Row.NumX: w := 1 + (InputWidth-WindowWidth)/StrideX
with Go division (truncation toward zero), returning 0 when w is
negative. -/
def NumX (m : Im2Row) : ℤ :=
  let w : ℤ := 1 + Int.tdiv ((m.InputWidth : ℤ) - (m.WindowWidth : ℤ)) (m.StrideX : ℤ)
  if w < 0 then 0 else w

/-- Translation of Im2Row.NumY: h := 1 + (InputHeight-WindowHeight)/StrideY
with Go division (truncation toward zero), returning 0 when h is
negative. -/
def NumY (m : Im2Row) : ℤ :=
  let h : ℤ := 1 + Int.tdiv ((m.InputHeight : ℤ) - (m.WindowHeight : ℤ)) (m.StrideY : ℤ)
  if h < 0 then 0 else h

/-- Embedding of one Go loop of the form
for v := v0; v+winDim <= bound; v += stride \x7b ... \x7d
as the list of values taken by the loop variable, structurally recursive on
a fuel argument. -/
def scanAux (stride winDim bound : ℕ) : ℕ → ℕ → List ℕ
  | 0, _ => []
  | fuel + 1, v =>
    if v + winDim ≤ bound then v :: scanAux stride winDim bound fuel (v + stride)
    else []

/-- Values of the loop variable for a loop started at 0; fuel bound + 1 is
never exhausted when stride is positive, since the variable grows by at
least one per iteration and the guard needs v ≤ bound. -/
def scanFor (stride winDim bound : ℕ) : List ℕ :=
  scanAux stride winDim bound (bound + 1) 0

/-- Translation of the index-table construction inside Im2Row.Mapper
(the four nested loops appending
subYIdx + (subX+x)*InputDepth + subZ where
subYIdx = (y+subY)*InputWidth*InputDepth). -/
def mapping (m : Im2Row) : List ℕ :=
  (scanFor m.StrideY m.WindowHeight m.InputHeight).flatMap (fun y =>
    (scanFor m.StrideX m.WindowWidth m.InputWidth).flatMap (fun x =>
      (List.range m.WindowHeight).flatMap (fun subY =>
        (List.range m.WindowWidth).flatMap (fun subX =>
          (List.range m.InputDepth).map (fun subZ =>
            (y + subY) * m.InputWidth * m.InputDepth + (subX + x) * m.InputDepth + subZ)))))

end Im2Row

/-- Modelled from the spec: the backend capability compiles a list of
integer source-offsets, given a source length, into an opaque mapping
object associated with that backend (anyvec.Mapper is not part of this
repository). The creator field records the backend identity used by the
cache. -/
structure CompiledMapper where
  creator : ℕ
  inSize : ℕ
  table : List ℕ
deriving DecidableEq

/-- Modelled from the spec: anyvec.Creator.MakeMapper packages the source
length and the gather table for a given backend. -/
def MakeMapper (c : ℕ) (inSize : ℕ) (table : List ℕ) : CompiledMapper :=
  ⟨c, inSize, table⟩

/-- Embedding of anyvec.Vector.Slice(start, stop): the contiguous
sub-range of elements at positions start, ..., stop-1. -/
def listSlice {α : Type} (xs : List α) (start stop : ℕ) : List α :=
  (xs.drop start).take (stop - start)

/-- Modelled from the spec: applying a compiled mapper gathers
src[table[j]] into destination cell j; an out-of-range offset (never
produced, see the bounds theorem) reads the default element. -/
def gatherList {α : Type} [Inhabited α] (table : List ℕ) (src : List α) : List α :=
  table.map (fun i => src.getD i default)

namespace Im2Row

/-- Translation of Im2Row.Mapper with the mutable cached field m.mapper
passed and returned explicitly: on a cache hit for the same creator the
cached mapper is returned unchanged; otherwise the index table is built and
compiled for InputWidth*InputHeight*InputDepth source elements and stored,
replacing the single cached slot. The mutex serializing this sequence is
not modelled. -/
def MapperStep (m : Im2Row) (cache : Option CompiledMapper) (c : ℕ) :
    CompiledMapper × Option CompiledMapper :=
  match cache with
  | some mp =>
    if mp.creator = c then (mp, some mp)
    else
      let built := MakeMapper c (m.InputWidth * m.InputHeight * m.InputDepth) m.mapping
      (built, some built)
  | none =>
    let built := MakeMapper c (m.InputWidth * m.InputHeight * m.InputDepth) m.mapping
    (built, some built)

end Im2Row

/-- Observable events of one MapAll call, in program order: the fatal
validation failure, obtaining the mapper, allocating the output row matrix
(tagged with an allocation id), and invoking the callback f with a sample
index, the id of the matrix buffer passed, and the buffer contents at the
moment of the call. -/
inductive Event (α : Type) where
  | panicked : String → Event α
  | gotMapper : Event α
  | allocatedOut : ℕ → Event α
  | called : ℕ → ℕ → List α → Event α
deriving DecidableEq

namespace Im2Row

/-- Translation of Im2Row.MapAll as its ordered event trace: first the
divisibility check on in.Len() (Go % panics on a zero divisor), then
m.Mapper(...), then m.MakeOut(...) allocating one buffer (id 0), then for
i = 0..n-1 the mapper gathers from the slice
in.Slice(inSize*i, inSize*(i+1)) into the shared buffer and f(i, imageMat)
is invoked. -/
def MapAllTrace {α : Type} [Inhabited α] (m : Im2Row) (input : List α) :
    List (Event α) :=
  let inSize := m.InputSize
  if inSize = 0 then [Event.panicked "integer divide by zero"]
  else if input.length % inSize ≠ 0 then
    [Event.panicked "input length not divisible by input size"]
  else
    let n := input.length / inSize
    Event.gotMapper :: Event.allocatedOut 0 ::
      (List.range n).map (fun i =>
        Event.called i 0
          (gatherList m.mapping (listSlice input (inSize * i) (inSize * (i + 1)))))

end Im2Row

/-- Projection of a trace to the callback invocations: the sample index and
the buffer contents of each call to f, in order. -/
def callEvents {α : Type} (tr : List (Event α)) : List (ℕ × List α) :=
  tr.filterMap (fun e =>
    match e with
    | Event.called i _ d => some (i, d)
    | _ => none)

/-- Index table in the scan order stated by the specification: outer loop
on y while y + windowHeight <= inputHeight stepping strideY, inner loop on
x while x + windowWidth <= inputWidth stepping strideX, then subY, subX,
subZ innermost, emitting ((y+subY)*inputWidth + (x+subX))*inputDepth +
subZ. -/
def specScanTable (m : Im2Row) : List ℕ :=
  (Im2Row.scanFor m.StrideY m.WindowHeight m.InputHeight).flatMap (fun y =>
    (Im2Row.scanFor m.StrideX m.WindowWidth m.InputWidth).flatMap (fun x =>
      (List.range m.WindowHeight).flatMap (fun subY =>
        (List.range m.WindowWidth).flatMap (fun subX =>
          (List.range m.InputDepth).map (fun subZ =>
            ((y + subY) * m.InputWidth + (x + subX)) * m.InputDepth + subZ)))))

/-- Windows wider than the input by less than one stride: WindowWidth 5,
WindowHeight 2, StrideX 2, StrideY 1, InputWidth 4, InputHeight 4,
InputDepth 1. -/
def cfgWideWindow : Im2Row := ⟨5, 2, 2, 1, 4, 4, 1⟩

/-- Window wider than the input, single row: WindowWidth 5, WindowHeight 1,
StrideX 2, StrideY 1, InputWidth 4, InputHeight 1, InputDepth 1. -/
def cfgFlatWide : Im2Row := ⟨5, 1, 2, 1, 4, 1, 1⟩

/-- The worked 2x2-window stride-2 example on a 4x4x1 input. -/
def cfgPool : Im2Row := ⟨2, 2, 2, 2, 4, 4, 1⟩

/-- Window wider than the input with both strides 2. -/
def cfgWideStride : Im2Row := ⟨5, 2, 2, 2, 4, 4, 1⟩

/-- The worked 3-wide-window stride-1 example on a 4x4x1 input. -/
def cfgWin3 : Im2Row := ⟨3, 2, 1, 1, 4, 4, 1⟩

/-- A 2x1x1 input tensor with a 1x1 window, used to instantiate the batch
theorems on concrete data. -/
def cfgTwoWide : Im2Row := ⟨1, 1, 1, 1, 2, 1, 1⟩

/-- Every value of the loop variable collected by scanAux satisfies the
loop guard. -/
theorem scanAux_guard (stride winDim bound : ℕ) :
    ∀ fuel v w, w ∈ Im2Row.scanAux stride winDim bound fuel v → w + winDim ≤ bound := by
  intro fuel
  induction fuel with
  | zero => intro v w h; simp [Im2Row.scanAux] at h
  | succ f ih =>
    intro v w h
    by_cases hc : v + winDim ≤ bound
    · simp only [Im2Row.scanAux, if_pos hc, List.mem_cons] at h
      rcases h with rfl | h
      · exact hc
      · exact ih _ _ h
    · simp [Im2Row.scanAux, if_neg hc] at h

/-- Every value of the loop variable of an embedded Go scan loop satisfies
the loop guard. -/
theorem scanFor_guard (stride winDim bound w : ℕ)
    (h : w ∈ Im2Row.scanFor stride winDim bound) : w + winDim ≤ bound :=
  scanAux_guard stride winDim bound _ 0 w h

/-- C1: refuted as stated. The configuration cfgWideWindow has positive
window dimensions, strides and input dimensions and WindowWidth 5 greater
than InputWidth 4, yet NumX evaluates to 1, not 0: Go division truncates
(4-5)/2 toward zero to 0, so w = 1 escapes the negative clamp. The code
contradicts its own doc comment (NumX is the number of horizontal sliding
window positions, which is 0 here) and the special-casing the spec
requires. -/
theorem numX_window_wider_bug :
    cfgWideWindow.WindowWidth > cfgWideWindow.InputWidth ∧
      Im2Row.NumX cfgWideWindow = 1 ∧ Im2Row.NumX cfgWideWindow ≠ 0 := by
  decide

/-- C2: refuted as stated. For cfgFlatWide (all fields positive) the index
table built by Mapper is empty, while NumX * NumY * WindowWidth *
WindowHeight * InputDepth = 1 * 1 * 5 * 1 * 1 = 5, because NumX wrongly
evaluates to 1 when the window is wider than the input (see C1). -/
theorem mapping_length_invariant_bug :
    (Im2Row.mapping cfgFlatWide).length = 0 ∧
      Im2Row.NumX cfgFlatWide * Im2Row.NumY cfgFlatWide *
          (cfgFlatWide.WindowWidth : ℤ) * (cfgFlatWide.WindowHeight : ℤ) *
          (cfgFlatWide.InputDepth : ℤ) = 5 := by
  decide

/-- C3: Mapper enumerates placements in row-major scan order with subY,
subX, subZ innermost and emits ((y+subY)*inputWidth +
(x+subX))*inputDepth + subZ at every innermost step; on the 4x4x1 input
with a 2x2 window and stride 2 the first placement contributes offsets
0, 1, 4, 5 and the table has length 16. -/
theorem mapping_scan_order :
    (∀ m : Im2Row, m.mapping = specScanTable m) ∧
      (Im2Row.mapping cfgPool).take 4 = [0, 1, 4, 5] ∧
      (Im2Row.mapping cfgPool).length = 16 := by
  refine ⟨fun m => ?_, by decide, by decide⟩
  simp only [Im2Row.mapping, specScanTable]
  congr 1
  funext y
  congr 1
  funext x
  congr 1
  funext subY
  congr 1
  funext subX
  congr 1
  funext subZ
  ring

/-- C4: refuted as stated. The claim computes NumX with floor division:
for cfgWideStride that gives 1 + floor((4-5)/2) = 1 + (-1) = 0, a
non-negative raw value left unchanged by the clamp; the code truncates
toward zero and returns 1. The worked example (InputWidth 4, WindowWidth
3, StrideX 1 giving NumX 2) does hold. -/
theorem numX_floor_formula_bug :
    Im2Row.NumX cfgWideStride = 1 ∧
      1 + Int.fdiv ((cfgWideStride.InputWidth : ℤ) - (cfgWideStride.WindowWidth : ℤ))
          (cfgWideStride.StrideX : ℤ) = 0 ∧
      Im2Row.NumX cfgWin3 = 2 := by
  decide

/-- Unfolding of MapAllTrace on a well-shaped batch: the divisibility check
passes and the trace is the mapper acquisition, the single allocation and
one callback invocation per sample. -/
theorem mapAllTrace_ok {α : Type} [Inhabited α] (m : Im2Row) (input : List α)
    (hne : m.InputSize ≠ 0) (hmod : input.length % m.InputSize = 0) :
    Im2Row.MapAllTrace m input =
      Event.gotMapper :: Event.allocatedOut 0 ::
        (List.range (input.length / m.InputSize)).map (fun i =>
          Event.called i 0 (gatherList m.mapping
            (listSlice input (m.InputSize * i) (m.InputSize * (i + 1))))) := by
  simp only [Im2Row.MapAllTrace]
  rw [if_neg hne, if_neg (not_not_intro hmod)]

/-- Unfolding of MapAllTrace on a malformed batch: the trace is the fatal
validation failure alone. -/
theorem mapAllTrace_bad {α : Type} [Inhabited α] (m : Im2Row) (input : List α)
    (hne : m.InputSize ≠ 0) (hmod : input.length % m.InputSize ≠ 0) :
    Im2Row.MapAllTrace m input =
      [Event.panicked "input length not divisible by input size"] := by
  simp only [Im2Row.MapAllTrace]
  rw [if_neg hne, if_pos hmod]

/-- C5: for a configuration of positive input size, MapAll panics exactly
when the input length is not divisible by InputSize, and on that failure
the trace holds no mapper acquisition, no output allocation and no callback
invocation — the rejection happens before any observable work. -/
theorem mapAll_fatal_iff {α : Type} [Inhabited α] (m : Im2Row) (input : List α)
    (hpos : 0 < m.InputSize) :
    ((∃ s, Im2Row.MapAllTrace m input = [Event.panicked s]) ↔
      ¬ m.InputSize ∣ input.length) ∧
    (¬ m.InputSize ∣ input.length →
      ∀ e ∈ Im2Row.MapAllTrace m input,
        e ≠ Event.gotMapper ∧ (∀ b, e ≠ Event.allocatedOut b) ∧
        ∀ i b d, e ≠ Event.called i b d) := by
  have hne : m.InputSize ≠ 0 := hpos.ne'
  rw [Nat.dvd_iff_mod_eq_zero]
  by_cases hmod : input.length % m.InputSize = 0
  · rw [mapAllTrace_ok m input hne hmod]
    constructor
    · constructor
      · rintro ⟨s, hs⟩; exact absurd hs (by simp)
      · intro h; exact absurd hmod h
    · intro h; exact absurd hmod h
  · rw [mapAllTrace_bad m input hne hmod]
    refine ⟨⟨fun _ => hmod, fun _ => ⟨_, rfl⟩⟩, ?_⟩
    intro _ e he
    rw [List.mem_singleton] at he
    subst he
    exact ⟨by simp, fun b => by simp, fun i b d => by simp⟩

/-- Witness for C5 at a concrete input: InputSize 2 does not divide the
batch length 3, so the trace is a lone panic event. -/
theorem mapAll_fatal_iff_witness :
    0 < cfgTwoWide.InputSize ∧
      ∃ s, Im2Row.MapAllTrace cfgTwoWide ([5, 6, 7] : List ℤ) = [Event.panicked s] :=
  ⟨by decide,
    ((mapAll_fatal_iff cfgTwoWide ([5, 6, 7] : List ℤ) (by decide)).1).mpr (by decide)⟩

/-- C6: on a batch of n samples, MapAll invokes f exactly n times with
indices 0, ..., n-1 in ascending order, and the buffer contents at call i
are the mapper applied to the contiguous sub-range of the input spanning
sample i only. -/
theorem mapAll_calls_all_samples {α : Type} [Inhabited α] (m : Im2Row)
    (input : List α) (n : ℕ)
    (hpos : 0 < m.InputSize) (hlen : input.length = n * m.InputSize) :
    callEvents (Im2Row.MapAllTrace m input) =
      (List.range n).map (fun i =>
        (i, gatherList m.mapping
          (listSlice input (m.InputSize * i) (m.InputSize * (i + 1))))) := by
  have hne : m.InputSize ≠ 0 := hpos.ne'
  have hmod : input.length % m.InputSize = 0 := by
    rw [hlen]; exact Nat.mul_mod_left n _
  have hdiv : input.length / m.InputSize = n := by
    rw [hlen]; exact Nat.mul_div_cancel n hpos
  rw [mapAllTrace_ok m input hne hmod, hdiv]
  simp only [callEvents, List.filterMap_cons]
  induction List.range n with
  | nil => rfl
  | cons a t ih =>
    simp only [List.map_cons, List.filterMap_cons] at ih ⊢
    rw [ih]

/-- Witness for C6 at a concrete input: a batch of two samples of size two
produces the calls (0, sample 0 gathered) and (1, sample 1 gathered). -/
theorem mapAll_calls_all_samples_witness :
    callEvents (Im2Row.MapAllTrace cfgTwoWide ([10, 20, 30, 40] : List ℤ)) =
      [(0, [10, 20]), (1, [30, 40])] := by
  rw [mapAll_calls_all_samples cfgTwoWide ([10, 20, 30, 40] : List ℤ) 2
    (by decide) (by decide)]
  decide

/-- C7: on a well-shaped batch the mapper is obtained once and one output
matrix is allocated once, both before the per-sample loop, and every
callback invocation passes the one buffer with that same allocation id —
the buffer is reused across samples, never reallocated. -/
theorem mapAll_single_buffer {α : Type} [Inhabited α] (m : Im2Row)
    (input : List α)
    (hpos : 0 < m.InputSize) (hdvd : m.InputSize ∣ input.length) :
    ∃ b rest, Im2Row.MapAllTrace m input =
        Event.gotMapper :: Event.allocatedOut b :: rest ∧
      ∀ e ∈ rest, ∃ i d, e = Event.called i b d := by
  have hne : m.InputSize ≠ 0 := hpos.ne'
  have hmod : input.length % m.InputSize = 0 := Nat.dvd_iff_mod_eq_zero.mp hdvd
  refine ⟨0, (List.range (input.length / m.InputSize)).map (fun i =>
      Event.called i 0 (gatherList m.mapping
        (listSlice input (m.InputSize * i) (m.InputSize * (i + 1))))),
    mapAllTrace_ok m input hne hmod, ?_⟩
  intro e he
  simp only [List.mem_map, List.mem_range] at he
  obtain ⟨i, _, rfl⟩ := he
  exact ⟨i, _, rfl⟩

/-- Witness for C7 at a concrete input: the two-sample batch trace starts
with one mapper acquisition and one allocation, and every later event is a
call on that same buffer. -/
theorem mapAll_single_buffer_witness :
    ∃ b rest, Im2Row.MapAllTrace cfgTwoWide ([10, 20, 30, 40] : List ℤ) =
        Event.gotMapper :: Event.allocatedOut b :: rest ∧
      ∀ e ∈ rest, ∃ i d, e = Event.called i b d :=
  mapAll_single_buffer cfgTwoWide ([10, 20, 30, 40] : List ℤ) (by decide) (by decide)

/-- C8: a Mapper call with a cached mapper built for the same backend
returns it unchanged without rebuilding; with an empty cache or a mapper
built for a different backend it compiles the freshly built index table
for InputWidth*InputHeight*InputDepth source elements and replaces the
single cached slot; the call sequence backend a, backend b, backend a
rebuilds on every switch while producing identical gather tables. -/
theorem mapper_cache_policy (m : Im2Row) (mp mq : CompiledMapper) (c a b : ℕ)
    (hhit : mp.creator = c) (hmiss : mq.creator ≠ c) (hab : a ≠ b) :
    Im2Row.MapperStep m (some mp) c = (mp, some mp) ∧
    Im2Row.MapperStep m none c =
      (MakeMapper c (m.InputWidth * m.InputHeight * m.InputDepth) m.mapping,
       some (MakeMapper c (m.InputWidth * m.InputHeight * m.InputDepth) m.mapping)) ∧
    Im2Row.MapperStep m (some mq) c =
      (MakeMapper c (m.InputWidth * m.InputHeight * m.InputDepth) m.mapping,
       some (MakeMapper c (m.InputWidth * m.InputHeight * m.InputDepth) m.mapping)) ∧
    Im2Row.MapperStep m
        (some (MakeMapper a (m.InputWidth * m.InputHeight * m.InputDepth) m.mapping)) b =
      (MakeMapper b (m.InputWidth * m.InputHeight * m.InputDepth) m.mapping,
       some (MakeMapper b (m.InputWidth * m.InputHeight * m.InputDepth) m.mapping)) ∧
    Im2Row.MapperStep m
        (some (MakeMapper b (m.InputWidth * m.InputHeight * m.InputDepth) m.mapping)) a =
      (MakeMapper a (m.InputWidth * m.InputHeight * m.InputDepth) m.mapping,
       some (MakeMapper a (m.InputWidth * m.InputHeight * m.InputDepth) m.mapping)) ∧
    (MakeMapper a (m.InputWidth * m.InputHeight * m.InputDepth) m.mapping).table =
      (MakeMapper b (m.InputWidth * m.InputHeight * m.InputDepth) m.mapping).table := by
  refine ⟨by simp [Im2Row.MapperStep, hhit], rfl, by simp [Im2Row.MapperStep, hmiss],
    by simp [Im2Row.MapperStep, MakeMapper, hab], ?_, rfl⟩
  simp [Im2Row.MapperStep, MakeMapper, Ne.symm hab]

/-- Witness for C8 at a concrete input: a cached mapper for backend 7 is
returned unchanged by a call with backend 7. -/
theorem mapper_cache_policy_witness :
    Im2Row.MapperStep cfgTwoWide (some (MakeMapper 7 2 [0, 1])) 7 =
      (MakeMapper 7 2 [0, 1], some (MakeMapper 7 2 [0, 1])) :=
  (mapper_cache_policy cfgTwoWide (MakeMapper 7 2 [0, 1]) (MakeMapper 8 2 []) 7 1 2
    rfl (by decide) (by decide)).1

/-- C9: for every configuration with positive window dimensions, strides
and input dimensions, every offset Mapper appends to the index table is
below InputSize, so a compiled mapper built from the table never gathers
out of the source buffer bounds (offsets are naturals, hence never
negative). -/
theorem mapping_offsets_in_bounds (m : Im2Row)
    (hww : 0 < m.WindowWidth) (hwh : 0 < m.WindowHeight)
    (hsx : 0 < m.StrideX) (hsy : 0 < m.StrideY)
    (hiw : 0 < m.InputWidth) (hih : 0 < m.InputHeight) (hid : 0 < m.InputDepth) :
    ∀ off ∈ m.mapping, off < m.InputSize := by
  intro off hoff
  simp only [Im2Row.mapping, List.mem_flatMap, List.mem_map, List.mem_range] at hoff
  obtain ⟨y, hy, x, hx, subY, hsubY, subX, hsubX, subZ, hsubZ, rfl⟩ := hoff
  have hyg := scanFor_guard m.StrideY m.WindowHeight m.InputHeight y hy
  have hxg := scanFor_guard m.StrideX m.WindowWidth m.InputWidth x hx
  have h1 : y + subY + 1 ≤ m.InputHeight := by omega
  have h2 : subX + x + 1 ≤ m.InputWidth := by omega
  unfold Im2Row.InputSize
  calc (y + subY) * m.InputWidth * m.InputDepth + (subX + x) * m.InputDepth + subZ
      < (y + subY) * m.InputWidth * m.InputDepth + (subX + x) * m.InputDepth
          + m.InputDepth := by omega
    _ = ((y + subY) * m.InputWidth + (subX + x + 1)) * m.InputDepth := by ring
    _ ≤ ((y + subY) * m.InputWidth + m.InputWidth) * m.InputDepth :=
        Nat.mul_le_mul (by omega) (Nat.le_refl _)
    _ = (y + subY + 1) * m.InputWidth * m.InputDepth := by ring
    _ ≤ m.InputHeight * m.InputWidth * m.InputDepth :=
        Nat.mul_le_mul (Nat.mul_le_mul h1 (Nat.le_refl _)) (Nat.le_refl _)
    _ = m.InputWidth * m.InputHeight * m.InputDepth := by ring

/-- Witness for C9 at a concrete input: offset 15 of the worked 4x4x1
example table lies below InputSize 16. -/
theorem mapping_offsets_in_bounds_witness :
    (15 : ℕ) < Im2Row.InputSize cfgPool :=
  mapping_offsets_in_bounds cfgPool (by decide) (by decide) (by decide) (by decide)
    (by decide) (by decide) (by decide) 15 (by decide)
